import Mathlib

/-!
Verification of the HTTP-route conversion layer
(`policy-controller/k8s/index/src/http_route.rs`): a shallow embedding of
the external Gateway-API-style wire types, the canonical route-matching
model, and the conversion/validation functions between them, together with
theorems settling the specification's claims about that layer.

Conventions of the embedding:
* Rust strings are modelled as `Str := List Char`, with `Str.starts_with`
  and `Str.split` mirroring `str::starts_with` and `str::split`.
* Rust `Result<T>` (with `anyhow` errors) becomes `Except ConvError T`;
  each `anyhow!`/`bail!` site and each external parse failure becomes one
  `ConvError` constructor carrying the offending value.
* The `regex` crate's pattern compiler is external to the repository, so
  every function that compiles a pattern is parametrised by a compiler
  `rc : RegexCompiler`; a compiled regex is modelled as its pattern string.
* Panics (`expect`) are modelled as the `Except.error` branch of a
  dedicated `Fatal` type, distinct from recoverable `ConvError`s.
* Machine integers (`u16` ports, status codes) are modelled as `Nat`.
-/

deriving instance DecidableEq for Except

/-- A Rust string, modelled as its character sequence. -/
abbrev Str := List Char

/-- Rust `str::starts_with`: the pattern is a prefix of the string. -/
def Str.starts_with (s pat : Str) : Bool :=
  pat.isPrefixOf s

/-- Rust `str::split` on a one-character separator: the (always nonempty)
list of the separator-free pieces, empty pieces included, so that
`split "a..b" sep` is `["a", "", "b"]` and `split "" sep` is `[""]`. -/
def Str.split (s : Str) (sep : Char) : List Str :=
  match s with
  | [] => [[]]
  | c :: cs =>
      match Str.split cs sep, decide (c = sep) with
      | rest, true => [] :: rest
      | r :: rs, false => (c :: r) :: rs
      | [], false => [[c]]

/-- A compiled regular expression, modelled as the pattern it was compiled
from (the `regex` crate's compiler is external to this repository). -/
structure Regex where
  pattern : Str
deriving DecidableEq, Repr

/-- An external regular-expression compiler: `some` on patterns that
compile, `none` on malformed patterns (`regex` crate, external). -/
abbrev RegexCompiler := Str → Option Regex

/-- The recoverable validation errors of the conversion layer: one
constructor per `anyhow!`/`bail!` site or external parse failure, carrying
the offending value (Rust renders these into human-readable messages). -/
inductive ConvError where
  /-- `path_match`: "HttpPathMatch paths must be absolute (begin with a
  slash); (value) is not an absolute path". -/
  | pathNotAbsolute (value : Str)
  /-- `path_modifier`: "RequestRedirect filters may only contain absolute
  paths (starting with a slash); (path) is not an absolute path". -/
  | redirectPathNotAbsolute (path : Str)
  /-- A regular-expression pattern failed to compile. -/
  | regexCompileFailed (pattern : Str)
  /-- A header name failed to parse as a valid header-name token. -/
  | headerNameInvalid (name : Str)
  /-- A header value failed to parse as a valid header-field value. -/
  | headerValueInvalid (value : Str)
  /-- A method token is not a recognised HTTP method. -/
  | methodInvalid (token : Str)
  /-- A redirect scheme is not a supported URI scheme. -/
  | schemeInvalid (scheme : Str)
  /-- A status code is not a valid HTTP status code. -/
  | statusCodeInvalid (code : Nat)
deriving DecidableEq, Repr

/-- The human-readable message each error renders to, mirroring the Rust
format strings; the `:?` debug quoting of the offending value is modelled
as plain double-quoting (escaping of special characters elided). -/
def ConvError.message : ConvError → Str
  | .pathNotAbsolute value =>
      "HttpPathMatch paths must be absolute (begin with `/`); \"".toList
        ++ value ++ "\" is not an absolute path".toList
  | .redirectPathNotAbsolute path =>
      "RequestRedirect filters may only contain absolute paths (starting with '/'); \"".toList
        ++ path ++ "\" is not an absolute path".toList
  | .regexCompileFailed pattern =>
      "invalid regular expression: \"".toList ++ pattern ++ "\"".toList
  | .headerNameInvalid name =>
      "invalid HTTP header name: \"".toList ++ name ++ "\"".toList
  | .headerValueInvalid value =>
      "invalid HTTP header value: \"".toList ++ value ++ "\"".toList
  | .methodInvalid token =>
      "invalid HTTP method: \"".toList ++ token ++ "\"".toList
  | .schemeInvalid scheme =>
      "invalid URI scheme: \"".toList ++ scheme ++ "\"".toList
  | .statusCodeInvalid code =>
      "invalid HTTP status code: ".toList ++ (toString code).toList

/-- `msg` mentions `v`: the offending value occurs verbatim inside the
rendered message. -/
def mentions (msg v : Str) : Prop :=
  ∃ pre post, msg = pre ++ v ++ post

namespace api

/-- `k8s_gateway_api::HttpPathMatch` (external wire type): the three path
match kinds, each carrying a raw string value. -/
inductive HttpPathMatch where
  | Exact (value : Str)
  | PathPrefix (value : Str)
  | RegularExpression (value : Str)
deriving DecidableEq, Repr

/-- `k8s_gateway_api::HttpHeaderMatch` (external wire type). -/
inductive HttpHeaderMatch where
  | Exact (name : Str) (value : Str)
  | RegularExpression (name : Str) (value : Str)
deriving DecidableEq, Repr

/-- `k8s_gateway_api::HttpQueryParamMatch` (external wire type). -/
inductive HttpQueryParamMatch where
  | Exact (name : Str) (value : Str)
  | RegularExpression (name : Str) (value : Str)
deriving DecidableEq, Repr

/-- `k8s_gateway_api::HttpRouteMatch` (external wire type): every field
optional. -/
structure HttpRouteMatch where
  path : Option HttpPathMatch
  headers : Option (List HttpHeaderMatch)
  query_params : Option (List HttpQueryParamMatch)
  method : Option Str
deriving DecidableEq, Repr

/-- `k8s_gateway_api::HttpHeader` (external wire type): a raw name/value
pair. -/
structure HttpHeader where
  name : Str
  value : Str
deriving DecidableEq, Repr

/-- `k8s_gateway_api::HttpRequestHeaderFilter` (external wire type). -/
structure HttpRequestHeaderFilter where
  set : Option (List HttpHeader)
  add : Option (List HttpHeader)
  remove : Option (List Str)
deriving DecidableEq, Repr

/-- `k8s_gateway_api::HttpPathModifier` (external wire type). -/
inductive HttpPathModifier where
  | ReplaceFullPath (replace_full_path : Str)
  | ReplacePrefixMatch (replace_prefix_match : Str)
deriving DecidableEq, Repr

/-- `k8s_gateway_api::HttpRequestRedirectFilter` (external wire type).
The port is a machine integer on the wire; it is modelled as an arbitrary
`Nat` so that the out-of-range behaviour the spec describes is statable. -/
structure HttpRequestRedirectFilter where
  scheme : Option Str
  hostname : Option Str
  path : Option HttpPathModifier
  port : Option Nat
  status_code : Option Nat
deriving DecidableEq, Repr

end api

namespace routes

/-- `routes::PathMatch` (canonical model). -/
inductive PathMatch where
  | Exact (value : Str)
  | Prefix (value : Str)
  | Regex (r : Regex)
deriving DecidableEq, Repr

/-- `routes::HostMatch` (canonical model). -/
inductive HostMatch where
  | Exact (hostname : Str)
  | Suffix (reverse_labels : List Str)
deriving DecidableEq, Repr

/-- A validated header name (`routes::HeaderName`); the validated wrapper
type of the external `http` crate is modelled as the underlying string. -/
abbrev HeaderName := Str

/-- A validated header value (`routes::HeaderValue`), modelled as the
underlying string. -/
abbrev HeaderValue := Str

/-- `routes::HeaderMatch` (canonical model). -/
inductive HeaderMatch where
  | Exact (name : HeaderName) (value : HeaderValue)
  | Regex (name : HeaderName) (r : Regex)
deriving DecidableEq, Repr

/-- `routes::QueryParamMatch` (canonical model): names and values are kept
as raw strings (no character validation in the Exact case). -/
inductive QueryParamMatch where
  | Exact (name : Str) (value : Str)
  | Regex (name : Str) (r : Regex)
deriving DecidableEq, Repr

/-- `routes::Method` (canonical model): a validated HTTP method token. -/
structure Method where
  token : Str
deriving DecidableEq, Repr

/-- The fixed set of valid HTTP method tokens. Modelled from the spec:
"validated against the enumerated HTTP method token set". -/
def httpMethods : List Str :=
  ["GET", "HEAD", "POST", "PUT", "DELETE", "CONNECT", "OPTIONS", "TRACE", "PATCH"].map
    String.toList

/-- Modelled from the spec: "parses the token against the fixed set of
valid HTTP methods; unrecognized tokens fail" (`routes::Method::try_from`
of the external core crate). -/
def Method.try_from (s : Str) : Except ConvError Method :=
  if s ∈ httpMethods then .ok ⟨s⟩ else .error (.methodInvalid s)

/-- `routes::HttpRouteMatch` (canonical model): absent path/method stay
options; headers and query params are plain collections. -/
structure HttpRouteMatch where
  path : Option PathMatch
  headers : List HeaderMatch
  query_params : List QueryParamMatch
  method : Option Method
deriving DecidableEq, Repr

/-- Modelled from the spec: "header names are valid tokens per HTTP
header-name grammar" — the token characters of the HTTP grammar are the
ASCII alphanumerics together with the fifteen special characters whose
codes are listed (bang, hash, dollar, percent, ampersand, quote, star,
plus, minus, dot, caret, underscore, backquote, bar, tilde). -/
def isTchar (c : Char) : Bool :=
  c.isAlphanum || [33, 35, 36, 37, 38, 39, 42, 43, 45, 46, 94, 95, 96, 124, 126].contains c.toNat

/-- Modelled from the spec: a valid header-name token is a nonempty string
of token characters. -/
def isHeaderToken (s : Str) : Bool :=
  !s.isEmpty && s.all isTchar

/-- Modelled from the spec: "(name) parsed into a validated header-name
type" (the `http` crate's `HeaderName` parse, external); internal
lowercase normalisation is elided. -/
def HeaderName.parse (s : Str) : Except ConvError HeaderName :=
  if isHeaderToken s then .ok s else .error (.headerNameInvalid s)

/-- Modelled from the spec: "values are valid header-field values" — a
visible ASCII or horizontal-tab character sequence (the `http` crate's
`HeaderValue` parse, external). -/
def isHeaderValueChar (c : Char) : Bool :=
  (32 ≤ c.toNat && c.toNat ≠ 127) || c.toNat = 9

/-- Modelled from the spec: "(value) parsed into a validated
header-value". -/
def HeaderValue.parse (s : Str) : Except ConvError HeaderValue :=
  if s.all isHeaderValueChar then .ok s else .error (.headerValueInvalid s)

/-- `routes::HeaderModifierFilter` (canonical model). -/
structure HeaderModifierFilter where
  add : List (HeaderName × HeaderValue)
  set : List (HeaderName × HeaderValue)
  remove : List HeaderName
deriving DecidableEq, Repr

/-- `routes::PathModifier` (canonical model). -/
inductive PathModifier where
  | Full (path : Str)
  | Prefix (path : Str)
deriving DecidableEq, Repr

/-- A supported redirect URI scheme. Modelled from the spec: "`scheme` if
present must parse into one of the supported URI schemes" (the scheme type
of the external core crate). -/
inductive Scheme where
  | Http
  | Https
deriving DecidableEq, Repr

/-- Modelled from the spec: the scheme parse accepts exactly the supported
URI schemes. -/
def Scheme.try_from (s : Str) : Except ConvError Scheme :=
  if s = "http".toList then .ok .Http
  else if s = "https".toList then .ok .Https
  else .error (.schemeInvalid s)

/-- A validated HTTP status code (`routes::StatusCode`), modelled as its
numeric value. -/
abbrev StatusCode := Nat

/-- Modelled from the spec: "`statusCode`, if present, must parse into a
valid HTTP status code or the conversion fails" — a three-digit code. -/
def StatusCode.try_from (n : Nat) : Except ConvError StatusCode :=
  if 100 ≤ n ∧ n ≤ 599 then .ok n else .error (.statusCodeInvalid n)

/-- `routes::RequestRedirectFilter` (canonical model). -/
structure RequestRedirectFilter where
  scheme : Option Scheme
  host : Option Str
  path : Option PathModifier
  port : Option Nat
  status : Option StatusCode
deriving DecidableEq, Repr

end routes

/-- `std::num::NonZeroU16::try_from(p).ok()`: succeeds exactly on the
values a nonzero 16-bit unsigned integer can hold, i.e. 1–65535. -/
def nonZeroU16TryFrom (p : Nat) : Option Nat :=
  if 1 ≤ p ∧ p ≤ 65535 then some p else none

/-- Rust `opt.map(f).transpose()?`: an absent value stays absent, a
present value is converted, and a conversion failure propagates. -/
def mapTranspose {ε α β : Type} (f : α → Except ε β) : Option α → Except ε (Option β)
  | none => Except.ok none
  | some a => (f a).map some

/-- `value.parse::<Regex>()` under the ambient compiler `rc`, with the
compile failure surfaced as a `ConvError`. -/
def regexParse (rc : RegexCompiler) (pattern : Str) : Except ConvError Regex :=
  match rc pattern with
  | some r => .ok r
  | none => .error (.regexCompileFailed pattern)

/-- `path_match` (src/policy-controller/k8s/index/src/http_route.rs:92):
Exact/PathPrefix values must begin with a slash, RegularExpression values
must compile. -/
def path_match (rc : RegexCompiler) : api.HttpPathMatch → Except ConvError routes.PathMatch
  | .Exact value =>
      if !Str.starts_with value "/".toList then .error (.pathNotAbsolute value)
      else .ok (.Exact value)
  | .PathPrefix value =>
      if !Str.starts_with value "/".toList then .error (.pathNotAbsolute value)
      else .ok (.Prefix value)
  | .RegularExpression value => (regexParse rc value).map routes.PathMatch.Regex

/-- `host_match` (http_route.rs:108): wildcard hostnames become suffix
matches over the reversed remaining labels (`split('.')`, `skip(1)`,
collect, reverse); everything else is exact. -/
def host_match (hostname : Str) : routes.HostMatch :=
  if Str.starts_with hostname "*.".toList then
    routes.HostMatch.Suffix (((Str.split hostname (Char.ofNat 46)).drop 1).reverse)
  else
    routes.HostMatch.Exact hostname

/-- `header_match` (http_route.rs:122). -/
def header_match (rc : RegexCompiler) : api.HttpHeaderMatch → Except ConvError routes.HeaderMatch
  | .Exact name value => do
      let n ← routes.HeaderName.parse name
      let v ← routes.HeaderValue.parse value
      .ok (.Exact n v)
  | .RegularExpression name value => do
      let n ← routes.HeaderName.parse name
      let r ← regexParse rc value
      .ok (.Regex n r)

/-- `query_param_match` (http_route.rs:133): Exact copies name and value
verbatim; RegularExpression compiles the value. -/
def query_param_match (rc : RegexCompiler) :
    api.HttpQueryParamMatch → Except ConvError routes.QueryParamMatch
  | .Exact name value => .ok (.Exact name value)
  | .RegularExpression name value => do
      let r ← regexParse rc value
      .ok (.Regex name r)

/-- `try_match` (http_route.rs:57): composes the primitive matchers over
an external `HttpRouteMatch`; each absent list flattens to the empty list,
each sub-failure propagates through `?`. -/
def try_match (rc : RegexCompiler) (m : api.HttpRouteMatch) :
    Except ConvError routes.HttpRouteMatch := do
  let path ← mapTranspose (path_match rc) m.path
  let headers ← (m.headers.getD []).mapM (header_match rc)
  let query_params ← (m.query_params.getD []).mapM (query_param_match rc)
  let method ← mapTranspose routes.Method.try_from m.method
  pure { path := path, headers := headers, query_params := query_params, method := method }

/-- The closure `|api::HttpHeader { name, value }| Ok((name.parse()?,
value.parse()?))` of `header_modifier` (http_route.rs:151,156): parse the
raw name, then the raw value, into the validated pair. -/
def header_pair (h : api.HttpHeader) :
    Except ConvError (routes.HeaderName × routes.HeaderValue) := do
  let n ← routes.HeaderName.parse h.name
  let v ← routes.HeaderValue.parse h.value
  pure (n, v)

/-- `header_modifier` (http_route.rs:144): each absent list flattens to
the empty list; every raw name/value is parsed, failing fast (the Rust
struct literal evaluates `add`, then `set`, then `remove`). -/
def header_modifier (f : api.HttpRequestHeaderFilter) :
    Except ConvError routes.HeaderModifierFilter := do
  let add ← (f.add.getD []).mapM header_pair
  let set ← (f.set.getD []).mapM header_pair
  let remove ← (f.remove.getD []).mapM routes.HeaderName.parse
  pure { add := add, set := set, remove := remove }

/-- `path_modifier` (http_route.rs:184): ReplaceFullPath/ReplacePrefixMatch
values must begin with a slash. -/
def path_modifier : api.HttpPathModifier → Except ConvError routes.PathModifier
  | .ReplaceFullPath path =>
      if !Str.starts_with path "/".toList then .error (.redirectPathNotAbsolute path)
      else .ok (.Full path)
  | .ReplacePrefixMatch path =>
      if !Str.starts_with path "/".toList then .error (.redirectPathNotAbsolute path)
      else .ok (.Prefix path)

/-- `req_redirect` (http_route.rs:166): the hostname is passed through
untouched, and an out-of-range port is silently dropped by
`NonZeroU16::try_from(p).ok()` rather than rejected. -/
def req_redirect (f : api.HttpRequestRedirectFilter) :
    Except ConvError routes.RequestRedirectFilter := do
  let scheme ← mapTranspose routes.Scheme.try_from f.scheme
  let path ← mapTranspose path_modifier f.path
  let status ← mapTranspose routes.StatusCode.try_from f.status_code
  pure { scheme := scheme
         host := f.hostname
         path := path
         port := f.port.bind fun p => nonZeroU16TryFrom p
         status := status }

/-- `kube::ObjectMeta`, restricted to the fields this layer reads: the
declared name and the optional namespace of a resource instance. -/
structure ObjectMeta where
  name : Str
  namespaceOpt : Option Str
deriving DecidableEq, Repr

/-- An HTTP route resource instance of either external schema, restricted
to its metadata (the spec/status payloads play no role in the claims about
the adapter's name/namespace/identity accessors). -/
structure RouteInstance where
  metadata : ObjectMeta
deriving DecidableEq, Repr

/-- `HttpRouteResource` (http_route.rs:8): the tagged union of the two
external route schemas. -/
inductive HttpRouteResource where
  | Linkerd (route : RouteInstance)
  | Gateway (route : RouteInstance)
deriving DecidableEq, Repr

/-- A fatal failure (Rust panic), distinct from the recoverable
`ConvError`s: `expect(msg)` on a missing value halts with `msg`. -/
inductive Fatal where
  | panic (msg : Str)
deriving DecidableEq, Repr

/-- The optional namespace of the underlying resource
(`kube::ResourceExt::namespace`). -/
def HttpRouteResource.metaNamespace : HttpRouteResource → Option Str
  | .Linkerd route => route.metadata.namespaceOpt
  | .Gateway route => route.metadata.namespaceOpt

/-- `HttpRouteResource::name` (http_route.rs:15). -/
def HttpRouteResource.name : HttpRouteResource → Str
  | .Linkerd route => route.metadata.name
  | .Gateway route => route.metadata.name

/-- `HttpRouteResource::namespace` (http_route.rs:22):
`route.namespace().expect("HttpRoute must have a namespace")` — the panic
of `expect` is modelled as the `Fatal` error branch. -/
def HttpRouteResource.namespaceOf : HttpRouteResource → Except Fatal Str
  | .Linkerd route =>
      match route.metadata.namespaceOpt with
      | some ns => .ok ns
      | none => .error (.panic "HttpRoute must have a namespace".toList)
  | .Gateway route =>
      match route.metadata.namespaceOpt with
      | some ns => .ok ns
      | none => .error (.panic "HttpRoute must have a namespace".toList)

/-- `GroupKindName` (external core crate): the {group, kind, name}
identity key. -/
structure GroupKindName where
  group : Str
  kind : Str
  name : Str
deriving DecidableEq, Repr

/-- The static per-type metadata of a `kube::Resource` type: its API group
and kind. Modelled from the spec: "group and kind come from static
per-type metadata (never the instance)" — in Rust these are the associated
`T::group(&())` / `T::kind(&())` of the resource type. -/
structure ResourceType where
  group : Str
  kind : Str
deriving DecidableEq, Repr

/-- Modelled from the spec: the static group/kind of the vendor-specific
(`policy::HttpRoute`) route type. -/
def policyHttpRouteType : ResourceType :=
  { group := "policy.linkerd.io".toList, kind := "HTTPRoute".toList }

/-- Modelled from the spec: the static group/kind of the Gateway-API
(`api::HttpRoute`) route type. -/
def gatewayHttpRouteType : ResourceType :=
  { group := "gateway.networking.k8s.io".toList, kind := "HTTPRoute".toList }

/-- `gkn_for_resource` (http_route.rs:205): the Rust function is generic
over the resource type `T`; the embedding passes the type's static
metadata explicitly. The name is the instance's declared name, copied
verbatim. -/
def gkn_for_resource (T : ResourceType) (t : RouteInstance) : GroupKindName :=
  { group := T.group, kind := T.kind, name := t.metadata.name }

/-- `gkn_for_linkerd_http_route` (http_route.rs:215). -/
def gkn_for_linkerd_http_route (name : Str) : GroupKindName :=
  { group := policyHttpRouteType.group, kind := policyHttpRouteType.kind, name := name }

/-- `gkn_for_gateway_http_route` (http_route.rs:223). -/
def gkn_for_gateway_http_route (name : Str) : GroupKindName :=
  { group := gatewayHttpRouteType.group, kind := gatewayHttpRouteType.kind, name := name }

/-- The regular-expression compiler that accepts every pattern (used to
instantiate the parametrised theorems at concrete inputs). -/
def rcId : RegexCompiler := fun s => some ⟨s⟩

/-- The regular-expression compiler that rejects every pattern (used to
instantiate the parametrised theorems at concrete inputs). -/
def rcNone : RegexCompiler := fun _ => none

theorem exbind_ok_left {ε α β : Type} (a : α) (g : α → Except ε β) :
    (Except.ok a >>= g) = g a := rfl

theorem exbind_error_left {ε α β : Type} (e : ε) (g : α → Except ε β) :
    ((Except.error e : Except ε α) >>= g) = Except.error e := rfl

theorem exbind_error_iff {ε α β : Type} (x : Except ε α) (g : α → Except ε β) (e : ε) :
    (x >>= g) = .error e ↔ x = .error e ∨ ∃ a, x = .ok a ∧ g a = .error e := by
  cases x <;> simp [Bind.bind, Except.bind]

theorem exbind_ok_iff {ε α β : Type} (x : Except ε α) (g : α → Except ε β) (b : β) :
    (x >>= g) = .ok b ↔ ∃ a, x = .ok a ∧ g a = .ok b := by
  cases x <;> simp [Bind.bind, Except.bind]

theorem mapTranspose_error_iff {ε α β : Type} (f : α → Except ε β) (o : Option α) (e : ε) :
    mapTranspose f o = .error e ↔ ∃ a, o = some a ∧ f a = .error e := by
  cases o with
  | none => simp [mapTranspose]
  | some a => cases h : f a <;> simp [mapTranspose, h, Except.map]

theorem mapTranspose_ok_iff {ε α β : Type} (f : α → Except ε β) (o : Option α) (b : Option β) :
    mapTranspose f o = .ok b ↔
      (o = none ∧ b = none) ∨ ∃ a c, o = some a ∧ f a = .ok c ∧ b = some c := by
  cases o with
  | none => simp [mapTranspose, eq_comm]
  | some a => cases h : f a <;> simp [mapTranspose, h, Except.map, eq_comm]

theorem mapTranspose_none {ε α β : Type} (f : α → Except ε β) :
    mapTranspose f none = .ok none := rfl

theorem exceptMapM_error {ε α β : Type} (g : α → Except ε β) (l : List α) (e : ε)
    (h : l.mapM g = .error e) : ∃ x ∈ l, g x = .error e := by
  induction l with
  | nil =>
      rw [List.mapM_nil] at h
      exact absurd h (by simp [pure, Except.pure])
  | cons a l ih =>
      rw [List.mapM_cons] at h
      rcases (exbind_error_iff _ _ _).1 h with ha | ⟨b, hb, h2⟩
      · exact ⟨a, by simp, ha⟩
      · rcases (exbind_error_iff _ _ _).1 h2 with hl | ⟨bs, hbs, h3⟩
        · obtain ⟨x, hx, hgx⟩ := ih hl
          exact ⟨x, by simp [hx], hgx⟩
        · simp [pure, Except.pure] at h3

theorem exceptMapM_error_of_mem {ε α β : Type} (g : α → Except ε β) (l : List α) (x : α)
    (hx : x ∈ l) (e : ε) (hgx : g x = .error e) : ∃ e2, l.mapM g = .error e2 := by
  induction l with
  | nil => simp at hx
  | cons a l ih =>
      rw [List.mapM_cons]
      rcases ha : g a with e1 | b
      · exact ⟨e1, by rw [exbind_error_left]⟩
      · rcases List.mem_cons.1 hx with rfl | hx2
        · rw [ha] at hgx; cases hgx
        · obtain ⟨e2, h2⟩ := ih hx2
          exact ⟨e2, by rw [exbind_ok_left, h2, exbind_error_left]⟩

/-- Claim C1: for every absolute path `p` (starting with a slash),
`path_match` maps `Exact p` to `Ok (PathMatch::Exact p)` and
`PathPrefix p` to `Ok (PathMatch::Prefix p)` with `p` unchanged; for every
non-absolute `p`, both calls return a validation error whose message
mentions `p`. -/
theorem path_match_absolute (rc : RegexCompiler) (p : Str) :
    (Str.starts_with p "/".toList = true →
      path_match rc (api.HttpPathMatch.Exact p) = .ok (routes.PathMatch.Exact p) ∧
      path_match rc (api.HttpPathMatch.PathPrefix p) = .ok (routes.PathMatch.Prefix p)) ∧
    (Str.starts_with p "/".toList = false →
      ∃ e, path_match rc (api.HttpPathMatch.Exact p) = .error e ∧
        path_match rc (api.HttpPathMatch.PathPrefix p) = .error e ∧
        mentions e.message p) := by
  constructor
  · intro h
    have h2 : Str.starts_with p ['/'] = true := h
    constructor <;> simp [path_match, h2]
  · intro h
    have h2 : Str.starts_with p ['/'] = false := h
    refine ⟨.pathNotAbsolute p, ?_, ?_, ?_⟩
    · simp [path_match, h2]
    · simp [path_match, h2]
    · exact ⟨"HttpPathMatch paths must be absolute (begin with `/`); \"".toList,
        "\" is not an absolute path".toList, rfl⟩

/-- Witness for C1 at the absolute path "/api" and the non-absolute path
"foo". -/
theorem path_match_absolute_witness :
    (Str.starts_with "/api".toList "/".toList = true ∧
      (path_match rcId (api.HttpPathMatch.Exact "/api".toList)
          = .ok (routes.PathMatch.Exact "/api".toList) ∧
        path_match rcId (api.HttpPathMatch.PathPrefix "/api".toList)
          = .ok (routes.PathMatch.Prefix "/api".toList))) ∧
    (Str.starts_with "foo".toList "/".toList = false ∧
      ∃ e, path_match rcId (api.HttpPathMatch.Exact "foo".toList) = .error e ∧
        path_match rcId (api.HttpPathMatch.PathPrefix "foo".toList) = .error e ∧
        mentions e.message "foo".toList) :=
  ⟨⟨by decide, (path_match_absolute rcId "/api".toList).1 (by decide)⟩,
    ⟨by decide, (path_match_absolute rcId "foo".toList).2 (by decide)⟩⟩

/-- Claim C2: `host_match` is total (its type has no error side); a
hostname beginning with the wildcard marker yields a Suffix whose
reverse_labels are the dot-separated labels after the wildcard segment in
reversed order, so "*.example.com" yields ["com", "example"]; any other
hostname yields Exact of the hostname unchanged. -/
theorem host_match_wildcard (h : Str) :
    (Str.starts_with h "*.".toList = true →
      host_match h
        = routes.HostMatch.Suffix (((Str.split h (Char.ofNat 46)).drop 1).reverse)) ∧
    (Str.starts_with h "*.".toList = false → host_match h = routes.HostMatch.Exact h) ∧
    host_match "*.example.com".toList
      = routes.HostMatch.Suffix ["com".toList, "example".toList] ∧
    host_match "example.com".toList = routes.HostMatch.Exact "example.com".toList := by
  refine ⟨fun hw => ?_, fun hw => ?_, by decide, by decide⟩
  · have h2 : Str.starts_with h ['*', '.'] = true := hw
    simp [host_match, h2]
  · have h2 : Str.starts_with h ['*', '.'] = false := hw
    simp [host_match, h2]

/-- Witness for C2 at "*.example.com" and "example.com". -/
theorem host_match_wildcard_witness :
    Str.starts_with "*.example.com".toList "*.".toList = true ∧
    host_match "*.example.com".toList
      = routes.HostMatch.Suffix (((Str.split "*.example.com".toList (Char.ofNat 46)).drop 1).reverse) ∧
    Str.starts_with "example.com".toList "*.".toList = false ∧
    host_match "example.com".toList = routes.HostMatch.Exact "example.com".toList :=
  ⟨by decide, (host_match_wildcard "*.example.com".toList).1 (by decide), by decide,
    (host_match_wildcard "example.com".toList).2.1 (by decide)⟩

/-- Claim C8: `path_modifier` fails with an absolute-path validation error
naming the offending value for every ReplaceFullPath or ReplacePrefixMatch
whose value does not start with a slash, and otherwise returns Full(value)
or Prefix(value) respectively with the value unchanged. -/
theorem path_modifier_absolute (p : Str) :
    (Str.starts_with p "/".toList = true →
      path_modifier (api.HttpPathModifier.ReplaceFullPath p)
          = .ok (routes.PathModifier.Full p) ∧
      path_modifier (api.HttpPathModifier.ReplacePrefixMatch p)
          = .ok (routes.PathModifier.Prefix p)) ∧
    (Str.starts_with p "/".toList = false →
      ∃ e, path_modifier (api.HttpPathModifier.ReplaceFullPath p) = .error e ∧
        path_modifier (api.HttpPathModifier.ReplacePrefixMatch p) = .error e ∧
        mentions e.message p) := by
  constructor
  · intro h
    have h2 : Str.starts_with p ['/'] = true := h
    constructor <;> simp [path_modifier, h2]
  · intro h
    have h2 : Str.starts_with p ['/'] = false := h
    refine ⟨.redirectPathNotAbsolute p, ?_, ?_, ?_⟩
    · simp [path_modifier, h2]
    · simp [path_modifier, h2]
    · exact ⟨"RequestRedirect filters may only contain absolute paths (starting with '/'); \"".toList,
        "\" is not an absolute path".toList, rfl⟩

/-- Witness for C8 at the absolute path "/v2" and the non-absolute value
"relative" (the spec's own example). -/
theorem path_modifier_absolute_witness :
    (Str.starts_with "/v2".toList "/".toList = true ∧
      (path_modifier (api.HttpPathModifier.ReplaceFullPath "/v2".toList)
          = .ok (routes.PathModifier.Full "/v2".toList) ∧
        path_modifier (api.HttpPathModifier.ReplacePrefixMatch "/v2".toList)
          = .ok (routes.PathModifier.Prefix "/v2".toList))) ∧
    (Str.starts_with "relative".toList "/".toList = false ∧
      ∃ e, path_modifier (api.HttpPathModifier.ReplaceFullPath "relative".toList) = .error e ∧
        path_modifier (api.HttpPathModifier.ReplacePrefixMatch "relative".toList) = .error e ∧
        mentions e.message "relative".toList) :=
  ⟨⟨by decide, (path_modifier_absolute "/v2".toList).1 (by decide)⟩,
    ⟨by decide, (path_modifier_absolute "relative".toList).2 (by decide)⟩⟩

/-- Claim C9: `query_param_match` in the Exact case copies name and value
verbatim with no validation and cannot fail; in the Regex case it copies
the name verbatim and fails exactly when the value does not compile. -/
theorem query_param_match_spec (rc : RegexCompiler) (name value : Str) :
    query_param_match rc (api.HttpQueryParamMatch.Exact name value)
        = .ok (routes.QueryParamMatch.Exact name value) ∧
    (∀ r, rc value = some r →
      query_param_match rc (api.HttpQueryParamMatch.RegularExpression name value)
        = .ok (routes.QueryParamMatch.Regex name r)) ∧
    (rc value = none →
      query_param_match rc (api.HttpQueryParamMatch.RegularExpression name value)
        = .error (.regexCompileFailed value)) := by
  refine ⟨rfl, fun r hr => ?_, fun hn => ?_⟩
  · simp [query_param_match, regexParse, hr, exbind_ok_left]
  · simp [query_param_match, regexParse, hn, exbind_error_left]

/-- Witness for C9 at a compiler that accepts the pattern and one that
rejects it. -/
theorem query_param_match_spec_witness :
    (rcId "a+".toList = some ⟨"a+".toList⟩ ∧
      query_param_match rcId (api.HttpQueryParamMatch.RegularExpression "q".toList "a+".toList)
        = .ok (routes.QueryParamMatch.Regex "q".toList ⟨"a+".toList⟩)) ∧
    (rcNone "a+".toList = none ∧
      query_param_match rcNone (api.HttpQueryParamMatch.RegularExpression "q".toList "a+".toList)
        = .error (.regexCompileFailed "a+".toList)) ∧
    query_param_match rcId (api.HttpQueryParamMatch.Exact "q".toList "v 1".toList)
      = .ok (routes.QueryParamMatch.Exact "q".toList "v 1".toList) :=
  ⟨⟨by decide, (query_param_match_spec rcId "q".toList "a+".toList).2.1 _ (by decide)⟩,
    ⟨by decide, (query_param_match_spec rcNone "q".toList "a+".toList).2.2 (by decide)⟩,
    (query_param_match_spec rcId "q".toList "v 1".toList).1⟩

/-- Claim C6: for every route resource of either variant, if the
underlying resource has a namespace then `namespace()` returns it; if it
has none, `namespace()` fails fatally (the `expect` panic), not with a
recoverable error or a default. -/
theorem namespace_fatal (r : HttpRouteResource) :
    (∀ ns, r.metaNamespace = some ns → r.namespaceOf = .ok ns) ∧
    (r.metaNamespace = none →
      r.namespaceOf = .error (.panic "HttpRoute must have a namespace".toList)) := by
  cases r with
  | Linkerd route =>
      cases hn : route.metadata.namespaceOpt <;>
        simp [HttpRouteResource.metaNamespace, HttpRouteResource.namespaceOf, hn]
  | Gateway route =>
      cases hn : route.metadata.namespaceOpt <;>
        simp [HttpRouteResource.metaNamespace, HttpRouteResource.namespaceOf, hn]

/-- Witness for C6: a Linkerd-variant route with a namespace and a
Gateway-variant route without one. -/
theorem namespace_fatal_witness :
    (HttpRouteResource.Linkerd ⟨⟨"r1".toList, some "ns1".toList⟩⟩).metaNamespace
        = some "ns1".toList ∧
    (HttpRouteResource.Linkerd ⟨⟨"r1".toList, some "ns1".toList⟩⟩).namespaceOf
        = .ok "ns1".toList ∧
    (HttpRouteResource.Gateway ⟨⟨"r2".toList, none⟩⟩).metaNamespace = none ∧
    (HttpRouteResource.Gateway ⟨⟨"r2".toList, none⟩⟩).namespaceOf
        = .error (.panic "HttpRoute must have a namespace".toList) :=
  ⟨by decide,
    (namespace_fatal (HttpRouteResource.Linkerd ⟨⟨"r1".toList, some "ns1".toList⟩⟩)).1
      "ns1".toList (by decide),
    by decide,
    (namespace_fatal (HttpRouteResource.Gateway ⟨⟨"r2".toList, none⟩⟩)).2 (by decide)⟩

/-- Claim C7: identity derivation is deterministic and instance-independent
in group/kind: `gkn_for_resource` depends only on the static type metadata
and the instance's declared name (so equal names give equal keys), its
group/kind never vary with the instance, its name is the declared name
verbatim, and both convenience constructors have fixed group/kind and copy
the given name verbatim. -/
theorem gkn_identity (T : ResourceType) (t t2 : RouteInstance) (n n2 : Str) :
    (t.metadata.name = t2.metadata.name → gkn_for_resource T t = gkn_for_resource T t2) ∧
    (gkn_for_resource T t).group = T.group ∧
    (gkn_for_resource T t).kind = T.kind ∧
    (gkn_for_resource T t).name = t.metadata.name ∧
    (gkn_for_linkerd_http_route n).group = (gkn_for_linkerd_http_route n2).group ∧
    (gkn_for_linkerd_http_route n).kind = (gkn_for_linkerd_http_route n2).kind ∧
    (gkn_for_linkerd_http_route n).name = n ∧
    (gkn_for_gateway_http_route n).group = (gkn_for_gateway_http_route n2).group ∧
    (gkn_for_gateway_http_route n).kind = (gkn_for_gateway_http_route n2).kind ∧
    (gkn_for_gateway_http_route n).name = n := by
  refine ⟨fun h => ?_, rfl, rfl, rfl, rfl, rfl, rfl, rfl, rfl, rfl⟩
  simp [gkn_for_resource, h]

/-- Witness for C7: two instances sharing a name but differing in
namespace yield the same identity key. -/
theorem gkn_identity_witness :
    (RouteInstance.mk ⟨"r".toList, none⟩).metadata.name
        = (RouteInstance.mk ⟨"r".toList, some "ns".toList⟩).metadata.name ∧
    gkn_for_resource policyHttpRouteType ⟨⟨"r".toList, none⟩⟩
        = gkn_for_resource policyHttpRouteType ⟨⟨"r".toList, some "ns".toList⟩⟩ :=
  ⟨by decide,
    (gkn_identity policyHttpRouteType ⟨⟨"r".toList, none⟩⟩ ⟨⟨"r".toList, some "ns".toList⟩⟩
      "x".toList "y".toList).1 (by decide)⟩

theorem exceptMapM_ok {ε α β : Type} (g : α → Except ε β) (l : List α) (bs : List β)
    (h : l.mapM g = .ok bs) : ∀ x ∈ l, ∃ b, g x = .ok b := by
  induction l generalizing bs with
  | nil => simp
  | cons a l ih =>
      rw [List.mapM_cons] at h
      rcases (exbind_ok_iff _ _ _).1 h with ⟨b, hb, h2⟩
      rcases (exbind_ok_iff _ _ _).1 h2 with ⟨cs, hcs, h3⟩
      intro x hx
      rcases List.mem_cons.1 hx with rfl | hx2
      · exact ⟨b, hb⟩
      · exact ih cs hcs x hx2

/-- Claim C3: `req_redirect` treats a present port outside 1–65535 as
absent instead of failing: the conversion result with such a port is the
very result with no port at all; when the conversion succeeds, an in-range
port is carried and an out-of-range port is dropped; concretely, port 0
and port 65536 succeed with no port override while 8080 is carried. -/
theorem req_redirect_port (so ho : Option Str) (po : Option api.HttpPathModifier)
    (pt : Nat) (sc : Option Nat) :
    (¬(1 ≤ pt ∧ pt ≤ 65535) →
      req_redirect ⟨so, ho, po, some pt, sc⟩ = req_redirect ⟨so, ho, po, none, sc⟩) ∧
    (∀ r, req_redirect ⟨so, ho, po, some pt, sc⟩ = .ok r →
      ((1 ≤ pt ∧ pt ≤ 65535) → r.port = some pt) ∧
      (¬(1 ≤ pt ∧ pt ≤ 65535) → r.port = none)) ∧
    req_redirect ⟨none, none, none, some 0, none⟩
      = .ok ⟨none, none, none, none, none⟩ ∧
    req_redirect ⟨none, none, none, some 65536, none⟩
      = .ok ⟨none, none, none, none, none⟩ ∧
    req_redirect ⟨none, none, none, some 8080, none⟩
      = .ok ⟨none, none, none, some 8080, none⟩ := by
  refine ⟨fun hp => ?_, fun r hr => ?_, by decide, by decide, by decide⟩
  · simp [req_redirect, nonZeroU16TryFrom, hp]
  · simp only [req_redirect] at hr
    rcases (exbind_ok_iff _ _ _).1 hr with ⟨vs, hvs, h2⟩
    rcases (exbind_ok_iff _ _ _).1 h2 with ⟨vp, hvp, h3⟩
    rcases (exbind_ok_iff _ _ _).1 h3 with ⟨vst, hvst, h4⟩
    have h5 := Except.ok.inj h4
    constructor
    · intro hin
      rw [← h5]
      simp [Option.bind, nonZeroU16TryFrom, hin]
    · intro hout
      rw [← h5]
      simp [Option.bind, nonZeroU16TryFrom, hout]

/-- Witness for C3 at the out-of-range port 70000 and the in-range port
8080. -/
theorem req_redirect_port_witness :
    (¬(1 ≤ 70000 ∧ 70000 ≤ 65535) ∧
      req_redirect ⟨none, none, none, some 70000, none⟩
        = req_redirect ⟨none, none, none, none, none⟩) ∧
    ((1 ≤ 8080 ∧ 8080 ≤ 65535) ∧
      (routes.RequestRedirectFilter.mk none none none (some 8080) none).port = some 8080) :=
  ⟨⟨by decide, (req_redirect_port none none none 70000 none).1 (by decide)⟩,
    ⟨by decide,
      ((req_redirect_port none none none 8080 none).2.1
        (routes.RequestRedirectFilter.mk none none none (some 8080) none)
        (by decide)).1 (by decide)⟩⟩

/-- Claim C10: `req_redirect` passes the hostname through unchanged and
unvalidated: on success the host field equals the input hostname option
exactly, and replacing the hostname by any other value changes only the
host field of the outcome (in particular no hostname can cause the
conversion to fail). -/
theorem req_redirect_host (so : Option Str) (h1 h2 : Option Str)
    (po : Option api.HttpPathModifier) (pt : Option Nat) (sc : Option Nat) :
    (∀ r, req_redirect ⟨so, h1, po, pt, sc⟩ = .ok r → r.host = h1) ∧
    req_redirect ⟨so, h2, po, pt, sc⟩
      = (req_redirect ⟨so, h1, po, pt, sc⟩).map (fun r => { r with host := h2 }) ∧
    (∀ e, req_redirect ⟨so, h1, po, pt, sc⟩ = .error e ↔
      req_redirect ⟨so, h2, po, pt, sc⟩ = .error e) := by
  have key : req_redirect ⟨so, h2, po, pt, sc⟩
      = (req_redirect ⟨so, h1, po, pt, sc⟩).map (fun r => { r with host := h2 }) := by
    rcases hs : mapTranspose routes.Scheme.try_from so with es | vs
    · simp [req_redirect, hs, exbind_error_left, Except.map]
    · rcases hp : mapTranspose path_modifier po with ep | vp
      · simp [req_redirect, hs, hp, exbind_ok_left, exbind_error_left, Except.map]
      · rcases hst : mapTranspose routes.StatusCode.try_from sc with est | vst
        · simp [req_redirect, hs, hp, hst, exbind_ok_left, exbind_error_left, Except.map]
        · simp [req_redirect, hs, hp, hst, exbind_ok_left, pure, Except.pure, Except.map]
  refine ⟨fun r hr => ?_, key, fun e => ?_⟩
  · simp only [req_redirect] at hr
    rcases (exbind_ok_iff _ _ _).1 hr with ⟨vs, hvs, a2⟩
    rcases (exbind_ok_iff _ _ _).1 a2 with ⟨vp, hvp, a3⟩
    rcases (exbind_ok_iff _ _ _).1 a3 with ⟨vst, hvst, a4⟩
    have h5 := Except.ok.inj a4
    rw [← h5]
  · rw [key]
    cases hx : req_redirect ⟨so, h1, po, pt, sc⟩ <;> simp [Except.map]

/-- Witness for C10: a successful conversion carries the hostname
verbatim, and a failing conversion (invalid scheme) fails identically for
two different hostnames. -/
theorem req_redirect_host_witness :
    (routes.RequestRedirectFilter.mk none (some "web.example.com".toList) none none none).host
        = some "web.example.com".toList ∧
    (req_redirect ⟨some "ftp".toList, some "a".toList, none, none, none⟩
        = .error (.schemeInvalid "ftp".toList) ↔
      req_redirect ⟨some "ftp".toList, some "b".toList, none, none, none⟩
        = .error (.schemeInvalid "ftp".toList)) :=
  ⟨(req_redirect_host none (some "web.example.com".toList) (some "web.example.com".toList)
      none none none).1
      (routes.RequestRedirectFilter.mk none (some "web.example.com".toList) none none none)
      (by decide),
    (req_redirect_host (some "ftp".toList) (some "a".toList) (some "b".toList)
      none none none).2.2 (.schemeInvalid "ftp".toList)⟩

theorem header_pair_error_iff (h : api.HttpHeader) (e : ConvError) :
    header_pair h = .error e ↔
      routes.HeaderName.parse h.name = .error e ∨
        (∃ n, routes.HeaderName.parse h.name = .ok n ∧
          routes.HeaderValue.parse h.value = .error e) := by
  cases hn : routes.HeaderName.parse h.name with
  | error e1 => simp [header_pair, hn, exbind_error_left]
  | ok n =>
      cases hv : routes.HeaderValue.parse h.value with
      | error e2 => simp [header_pair, hn, hv, exbind_ok_left, exbind_error_left]
      | ok v => simp [header_pair, hn, hv, exbind_ok_left, pure, Except.pure]

theorem header_pair_ok_parses (h : api.HttpHeader)
    (b : routes.HeaderName × routes.HeaderValue) (hb : header_pair h = .ok b) :
    (∃ n, routes.HeaderName.parse h.name = .ok n) ∧
      (∃ v, routes.HeaderValue.parse h.value = .ok v) := by
  simp only [header_pair] at hb
  rcases (exbind_ok_iff _ _ _).1 hb with ⟨n, hn, h2⟩
  rcases (exbind_ok_iff _ _ _).1 h2 with ⟨v, hv, _⟩
  exact ⟨⟨n, hn⟩, ⟨v, hv⟩⟩

/-- Claim C4: `try_match` composes the primitive matchers fail-fast:
absent path/headers/query_params/method fields yield empty header and
query-param collections (and absent path/method options); any error the
composite returns is the failure of a single sub-match, unchanged; and any
single sub-match failure makes the whole composite conversion fail (so no
partial RouteMatch is produced). -/
theorem try_match_fail_fast (rc : RegexCompiler) (po : Option api.HttpPathMatch)
    (ho : Option (List api.HttpHeaderMatch)) (qo : Option (List api.HttpQueryParamMatch))
    (mo : Option Str) :
    (try_match rc { path := none, headers := none, query_params := none, method := none }
        = .ok { path := none, headers := [], query_params := [], method := none }) ∧
    (∀ r, try_match rc ⟨po, ho, qo, mo⟩ = .ok r →
      (po = none → r.path = none) ∧ (ho = none → r.headers = []) ∧
      (qo = none → r.query_params = []) ∧ (mo = none → r.method = none)) ∧
    (∀ e, try_match rc ⟨po, ho, qo, mo⟩ = .error e →
      (∃ p, po = some p ∧ path_match rc p = .error e) ∨
      (∃ h ∈ ho.getD [], header_match rc h = .error e) ∨
      (∃ q ∈ qo.getD [], query_param_match rc q = .error e) ∨
      (∃ s, mo = some s ∧ routes.Method.try_from s = .error e)) ∧
    (((∃ p e, po = some p ∧ path_match rc p = .error e) ∨
      (∃ h ∈ ho.getD [], ∃ e, header_match rc h = .error e) ∨
      (∃ q ∈ qo.getD [], ∃ e, query_param_match rc q = .error e) ∨
      (∃ s e, mo = some s ∧ routes.Method.try_from s = .error e)) →
      ∃ e, try_match rc ⟨po, ho, qo, mo⟩ = .error e) := by
  refine ⟨rfl, fun r hr => ?_, fun e he => ?_, fun hfail => ?_⟩
  · simp only [try_match] at hr
    rcases (exbind_ok_iff _ _ _).1 hr with ⟨pv, hpv, b2⟩
    rcases (exbind_ok_iff _ _ _).1 b2 with ⟨hv, hhv, b3⟩
    rcases (exbind_ok_iff _ _ _).1 b3 with ⟨qv, hqv, b4⟩
    rcases (exbind_ok_iff _ _ _).1 b4 with ⟨mv, hmv, b5⟩
    simp only [pure, Except.pure, Except.ok.injEq] at b5
    refine ⟨fun hpo => ?_, fun hho => ?_, fun hqo => ?_, fun hmo => ?_⟩
    · subst hpo
      rw [mapTranspose_none] at hpv
      obtain rfl := (Except.ok.inj hpv).symm
      rw [← b5]
    · subst hho
      simp only [Option.getD_none] at hhv
      rw [List.mapM_nil] at hhv
      simp only [pure, Except.pure, Except.ok.injEq] at hhv
      obtain rfl := hhv.symm
      rw [← b5]
    · subst hqo
      simp only [Option.getD_none] at hqv
      rw [List.mapM_nil] at hqv
      simp only [pure, Except.pure, Except.ok.injEq] at hqv
      obtain rfl := hqv.symm
      rw [← b5]
    · subst hmo
      rw [mapTranspose_none] at hmv
      obtain rfl := (Except.ok.inj hmv).symm
      rw [← b5]
  · simp only [try_match] at he
    rcases (exbind_error_iff _ _ _).1 he with h1 | ⟨pv, hpv, he2⟩
    · rcases (mapTranspose_error_iff _ _ _).1 h1 with ⟨p, hpo, hp⟩
      exact Or.inl ⟨p, hpo, hp⟩
    · rcases (exbind_error_iff _ _ _).1 he2 with h2 | ⟨hv, hhv, he3⟩
      · obtain ⟨x, hx, hgx⟩ := exceptMapM_error _ _ _ h2
        exact Or.inr (Or.inl ⟨x, hx, hgx⟩)
      · rcases (exbind_error_iff _ _ _).1 he3 with h3 | ⟨qv, hqv, he4⟩
        · obtain ⟨x, hx, hgx⟩ := exceptMapM_error _ _ _ h3
          exact Or.inr (Or.inr (Or.inl ⟨x, hx, hgx⟩))
        · rcases (exbind_error_iff _ _ _).1 he4 with h4 | ⟨mv, hmv, he5⟩
          · rcases (mapTranspose_error_iff _ _ _).1 h4 with ⟨s, hmo, hs⟩
            exact Or.inr (Or.inr (Or.inr ⟨s, hmo, hs⟩))
          · simp [pure, Except.pure] at he5
  · cases hres : try_match rc ⟨po, ho, qo, mo⟩ with
    | error e => exact ⟨e, rfl⟩
    | ok r =>
        exfalso
        simp only [try_match] at hres
        rcases (exbind_ok_iff _ _ _).1 hres with ⟨pv, hpv, b2⟩
        rcases (exbind_ok_iff _ _ _).1 b2 with ⟨hv, hhv, b3⟩
        rcases (exbind_ok_iff _ _ _).1 b3 with ⟨qv, hqv, b4⟩
        rcases (exbind_ok_iff _ _ _).1 b4 with ⟨mv, hmv, _⟩
        rcases hfail with ⟨p, e, hpo, hp⟩ | ⟨h, hh, e, hhe⟩ | ⟨q, hq, e, hqe⟩ | ⟨s, e, hmo, hs⟩
        · rw [hpo] at hpv
          rcases (mapTranspose_ok_iff _ _ _).1 hpv with ⟨hno, _⟩ | ⟨a, c, ha, hc, _⟩
          · exact Option.noConfusion hno
          · obtain rfl := Option.some.inj ha
            rw [hp] at hc
            cases hc
        · obtain ⟨b, hb⟩ := exceptMapM_ok _ _ _ hhv h hh
          rw [hhe] at hb
          cases hb
        · obtain ⟨b, hb⟩ := exceptMapM_ok _ _ _ hqv q hq
          rw [hqe] at hb
          cases hb
        · rw [hmo] at hmv
          rcases (mapTranspose_ok_iff _ _ _).1 hmv with ⟨hno, _⟩ | ⟨a, c, ha, hc, _⟩
          · exact Option.noConfusion hno
          · obtain rfl := Option.some.inj ha
            rw [hs] at hc
            cases hc

/-- Witness for C4: the all-absent match converts to the empty canonical
match, and a failing path sub-match is returned as the composite's own
(unchanged) failure. -/
theorem try_match_fail_fast_witness :
    (try_match rcId { path := none, headers := none, query_params := none, method := none }
        = .ok { path := none, headers := [], query_params := [], method := none }) ∧
    ((∃ p, some (api.HttpPathMatch.Exact "oops".toList) = some p ∧
        path_match rcId p = .error (.pathNotAbsolute "oops".toList)) ∨
      (∃ h ∈ (none : Option (List api.HttpHeaderMatch)).getD [],
        header_match rcId h = .error (.pathNotAbsolute "oops".toList)) ∨
      (∃ q ∈ (none : Option (List api.HttpQueryParamMatch)).getD [],
        query_param_match rcId q = .error (.pathNotAbsolute "oops".toList)) ∨
      (∃ s, (none : Option Str) = some s ∧
        routes.Method.try_from s = .error (.pathNotAbsolute "oops".toList))) :=
  ⟨(try_match_fail_fast rcId (some (api.HttpPathMatch.Exact "oops".toList)) none none none).1,
    (try_match_fail_fast rcId (some (api.HttpPathMatch.Exact "oops".toList)) none none
        none).2.2.1 (.pathNotAbsolute "oops".toList) (by decide)⟩

/-- Claim C5: `header_modifier` converts each absent set/add/remove list
to an empty collection (remove = None yields an empty remove list, and the
all-absent filter converts successfully to all-empty lists), and fails
with a propagated parse error exactly when some name or value in set/add,
or some name in remove, does not parse as a valid header token;
concretely, remove = Some(["X-Bad Name"]) fails. -/
theorem header_modifier_spec (so ao : Option (List api.HttpHeader)) (ro : Option (List Str)) :
    header_modifier { set := none, add := none, remove := none }
        = .ok { add := [], set := [], remove := [] } ∧
    (∀ r, header_modifier { set := so, add := ao, remove := ro } = .ok r →
      (ao = none → r.add = []) ∧ (so = none → r.set = []) ∧ (ro = none → r.remove = [])) ∧
    (∀ e, header_modifier { set := so, add := ao, remove := ro } = .error e →
      (∃ h ∈ ao.getD [], routes.HeaderName.parse h.name = .error e ∨
          routes.HeaderValue.parse h.value = .error e) ∨
      (∃ h ∈ so.getD [], routes.HeaderName.parse h.name = .error e ∨
          routes.HeaderValue.parse h.value = .error e) ∨
      (∃ n ∈ ro.getD [], routes.HeaderName.parse n = .error e)) ∧
    (((∃ h ∈ ao.getD [], ∃ e, routes.HeaderName.parse h.name = .error e ∨
          routes.HeaderValue.parse h.value = .error e) ∨
      (∃ h ∈ so.getD [], ∃ e, routes.HeaderName.parse h.name = .error e ∨
          routes.HeaderValue.parse h.value = .error e) ∨
      (∃ n ∈ ro.getD [], ∃ e, routes.HeaderName.parse n = .error e)) →
      ∃ e, header_modifier { set := so, add := ao, remove := ro } = .error e) ∧
    header_modifier { set := none, add := none, remove := some ["X-Bad Name".toList] }
      = .error (.headerNameInvalid "X-Bad Name".toList) := by
  refine ⟨rfl, fun r hr => ?_, fun e he => ?_, fun hfail => ?_, by decide⟩
  · simp only [header_modifier] at hr
    rcases (exbind_ok_iff _ _ _).1 hr with ⟨av, hav, b2⟩
    rcases (exbind_ok_iff _ _ _).1 b2 with ⟨sv, hsv, b3⟩
    rcases (exbind_ok_iff _ _ _).1 b3 with ⟨rv, hrv, b4⟩
    simp only [pure, Except.pure, Except.ok.injEq] at b4
    refine ⟨fun hao => ?_, fun hso => ?_, fun hro => ?_⟩
    · subst hao
      simp only [Option.getD_none] at hav
      rw [List.mapM_nil] at hav
      simp only [pure, Except.pure, Except.ok.injEq] at hav
      obtain rfl := hav.symm
      rw [← b4]
    · subst hso
      simp only [Option.getD_none] at hsv
      rw [List.mapM_nil] at hsv
      simp only [pure, Except.pure, Except.ok.injEq] at hsv
      obtain rfl := hsv.symm
      rw [← b4]
    · subst hro
      simp only [Option.getD_none] at hrv
      rw [List.mapM_nil] at hrv
      simp only [pure, Except.pure, Except.ok.injEq] at hrv
      obtain rfl := hrv.symm
      rw [← b4]
  · simp only [header_modifier] at he
    rcases (exbind_error_iff _ _ _).1 he with h1 | ⟨av, hav, he2⟩
    · obtain ⟨x, hx, hgx⟩ := exceptMapM_error _ _ _ h1
      rcases (header_pair_error_iff _ _).1 hgx with hn | ⟨n, _, hv⟩
      · exact Or.inl ⟨x, hx, Or.inl hn⟩
      · exact Or.inl ⟨x, hx, Or.inr hv⟩
    · rcases (exbind_error_iff _ _ _).1 he2 with h2 | ⟨sv, hsv, he3⟩
      · obtain ⟨x, hx, hgx⟩ := exceptMapM_error _ _ _ h2
        rcases (header_pair_error_iff _ _).1 hgx with hn | ⟨n, _, hv⟩
        · exact Or.inr (Or.inl ⟨x, hx, Or.inl hn⟩)
        · exact Or.inr (Or.inl ⟨x, hx, Or.inr hv⟩)
      · rcases (exbind_error_iff _ _ _).1 he3 with h3 | ⟨rv, hrv, he4⟩
        · obtain ⟨x, hx, hgx⟩ := exceptMapM_error _ _ _ h3
          exact Or.inr (Or.inr ⟨x, hx, hgx⟩)
        · simp [pure, Except.pure] at he4
  · cases hres : header_modifier { set := so, add := ao, remove := ro } with
    | error e => exact ⟨e, rfl⟩
    | ok r =>
        exfalso
        simp only [header_modifier] at hres
        rcases (exbind_ok_iff _ _ _).1 hres with ⟨av, hav, b2⟩
        rcases (exbind_ok_iff _ _ _).1 b2 with ⟨sv, hsv, b3⟩
        rcases (exbind_ok_iff _ _ _).1 b3 with ⟨rv, hrv, _⟩
        rcases hfail with ⟨h, hh, e, hne⟩ | ⟨h, hh, e, hne⟩ | ⟨n, hn, e, hne⟩
        · obtain ⟨b, hb⟩ := exceptMapM_ok _ _ _ hav h hh
          obtain ⟨⟨n1, hn1⟩, ⟨v1, hv1⟩⟩ := header_pair_ok_parses h b hb
          rcases hne with hx | hx
          · rw [hx] at hn1; cases hn1
          · rw [hx] at hv1; cases hv1
        · obtain ⟨b, hb⟩ := exceptMapM_ok _ _ _ hsv h hh
          obtain ⟨⟨n1, hn1⟩, ⟨v1, hv1⟩⟩ := header_pair_ok_parses h b hb
          rcases hne with hx | hx
          · rw [hx] at hn1; cases hn1
          · rw [hx] at hv1; cases hv1
        · obtain ⟨b, hb⟩ := exceptMapM_ok _ _ _ hrv n hn
          rw [hne] at hb
          cases hb

/-- Witness for C5: the all-absent filter converts to the all-empty
canonical filter, and the invalid remove name "X-Bad Name" is the
propagated failure. -/
theorem header_modifier_spec_witness :
    (header_modifier { set := none, add := none, remove := none }
        = .ok { add := [], set := [], remove := [] }) ∧
    ((∃ h ∈ (none : Option (List api.HttpHeader)).getD [],
        routes.HeaderName.parse h.name = .error (.headerNameInvalid "X-Bad Name".toList) ∨
          routes.HeaderValue.parse h.value
            = .error (.headerNameInvalid "X-Bad Name".toList)) ∨
      (∃ h ∈ (none : Option (List api.HttpHeader)).getD [],
        routes.HeaderName.parse h.name = .error (.headerNameInvalid "X-Bad Name".toList) ∨
          routes.HeaderValue.parse h.value
            = .error (.headerNameInvalid "X-Bad Name".toList)) ∨
      (∃ n ∈ (some ["X-Bad Name".toList]).getD [],
        routes.HeaderName.parse n = .error (.headerNameInvalid "X-Bad Name".toList))) :=
  ⟨(header_modifier_spec none none none).1,
    (header_modifier_spec none none (some ["X-Bad Name".toList])).2.2.1
      (.headerNameInvalid "X-Bad Name".toList) (by decide)⟩
